import Mathlib

/-!
Shallow embedding of the feed refresh engine of rssgrid
(cache policy evaluator, conditional fetcher, cache-metadata extraction,
ingestion/dedup writer, refresh batch loop), translated from
`internal/feed` (CacheFetcher, Updater) and `internal/db/store.go`.

Time is modelled as `Int` seconds; the Go `time.Time` zero value
(`IsZero`) that marks an absent timestamp is modelled as `Option.none`
on stored feed fields. Store writes are modelled as an explicit list of
operations (`StoreOp`) applied to a pure store state, and HTTP traffic
as an oracle; the boolean returned next to a fetch outcome records
whether an HTTP request was issued.
-/

namespace Rssgrid

/-- Go `unicode.IsSpace` restricted to Latin-1, as used by
`strings.TrimSpace`: space, tab, newline, vertical tab, form feed,
carriage return, NEL and NBSP. -/
def goIsSpace (c : Char) : Bool :=
  c = ' ' || c = '\t' || c = '\n' || c = Char.ofNat 11 || c = Char.ofNat 12 ||
  c = '\r' || c = Char.ofNat 0x85 || c = Char.ofNat 0xA0

/-- Go `strings.TrimSpace`: drop leading and trailing whitespace. -/
def trimSpace (s : String) : String :=
  String.mk (((s.data.dropWhile goIsSpace).reverse.dropWhile goIsSpace).reverse)

/-- Helper for `splitComma`: accumulate the current token (reversed). -/
def splitCommaAux : List Char → List Char → List String
  | [], acc => [String.mk acc.reverse]
  | c :: rest, acc =>
      if c = ',' then String.mk acc.reverse :: splitCommaAux rest []
      else splitCommaAux rest (c :: acc)

/-- Go `strings.Split(s, ",")`: comma-separated tokens; the empty string
yields one empty token. -/
def splitComma (s : String) : List String := splitCommaAux s.data []

/-- Go `strings.HasPrefix`. -/
def goHasPrefix (s pre : String) : Bool := pre.data.isPrefixOf s.data

/-- Go `strings.TrimPrefix`. -/
def goTrimPrefix (s pre : String) : String :=
  if goHasPrefix s pre then String.mk (s.data.drop pre.data.length) else s

/-- Value of an all-digit character list, `none` when empty or when a
non-digit occurs. -/
def digitsVal (cs : List Char) : Option Nat :=
  if cs = [] then none
  else if cs.all (fun c => c.isDigit) then
    some (cs.foldl (fun a c => a * 10 + (c.toNat - 48)) 0)
  else none

/-- Go `strconv.Atoi` on a 64-bit platform: optional sign, decimal
digits, error (here `none`) on empty input, stray characters, or a value
outside the `int64` range. -/
def goAtoi (s : String) : Option Int :=
  match s.data with
  | '+' :: rest =>
      (digitsVal rest).bind fun n =>
        if n ≤ 9223372036854775807 then some (Int.ofNat n) else none
  | '-' :: rest =>
      (digitsVal rest).bind fun n =>
        if n ≤ 9223372036854775808 then some (-(Int.ofNat n)) else none
  | cs =>
      (digitsVal cs).bind fun n =>
        if n ≤ 9223372036854775807 then some (Int.ofNat n) else none

/-- The loop body of `CacheFetcher.parseMaxAge` (`range` over the parts
of the comma-split header value): trim each part, look for the
`max-age=` directive, return the first remainder `strconv.Atoi` accepts;
parts whose remainder is empty or unparsable are passed over. -/
def parseMaxAgeLoop : List String → Int
  | [] => 0
  | p :: rest =>
      let part := trimSpace p
      if goHasPrefix part "max-age=" then
        let maxAgeStr := goTrimPrefix part "max-age="
        if maxAgeStr ≠ "" then
          match goAtoi maxAgeStr with
          | some v => v
          | none => parseMaxAgeLoop rest
        else parseMaxAgeLoop rest
      else parseMaxAgeLoop rest

/-- `CacheFetcher.parseMaxAge`: split the Cache-Control value on commas
and scan for a parsable `max-age=` directive; `0` is the not-found
sentinel. -/
def parseMaxAge (cacheControl : String) : Int :=
  parseMaxAgeLoop (splitComma cacheControl)

/-- The value a single Cache-Control token contributes to the max-age
scan: its trimmed form must carry the `max-age=` directive with a
non-empty remainder accepted by `strconv.Atoi`. -/
def maxAgeToken (tok : String) : Option Int :=
  let t := trimSpace tok
  if goHasPrefix t "max-age=" then
    if goTrimPrefix t "max-age=" ≠ "" then goAtoi (goTrimPrefix t "max-age=")
    else none
  else none

/-- Spec-side restatement of the max-age scan (for the refinement
theorem): the value of the first token accepted by `maxAgeToken`, else
the not-found sentinel `0`. -/
def specMaxAgeScan (tokens : List String) : Int :=
  match tokens.findSome? maxAgeToken with
  | some v => v
  | none => 0

/-- Go `http.Header.Get` over a header map modelled as an association
list of (canonical key, first value): the value of the first matching
key, or `""` when the header is absent. -/
def headerGet (headers : List (String × String)) (key : String) : String :=
  match headers.find? (fun p => p.1 = key) with
  | some p => p.2
  | none => ""

/-- `cacheInfo` / `CacheInfo`: freshness metadata extracted from a
response. `cacheUntil` is always a concrete timestamp (the extractor
always computes one). -/
structure CacheInfo where
  ETag : String
  LastModified : String
  CacheUntil : Int
deriving DecidableEq

/-- `CacheFetcher.extractCacheInfo`, parameterised by the RFC1123 date
parser (`time.Parse(time.RFC1123, ·)`, a standard-library collaborator)
and by `now`: start from the one-hour default, copy ETag and
Last-Modified verbatim when present, move to now + max-age when
Cache-Control carries a positive max-age, and finally let a parsable
Expires header override everything. -/
def extractCacheInfo (parseDate : String → Option Int) (now : Int)
    (headers : List (String × String)) : CacheInfo :=
  let info : CacheInfo := { ETag := "", LastModified := "", CacheUntil := now + 3600 }
  let info := if headerGet headers "ETag" ≠ "" then
    { info with ETag := headerGet headers "ETag" } else info
  let info := if headerGet headers "Last-Modified" ≠ "" then
    { info with LastModified := headerGet headers "Last-Modified" } else info
  let info :=
    if headerGet headers "Cache-Control" ≠ "" then
      if parseMaxAge (headerGet headers "Cache-Control") > 0 then
        { info with CacheUntil := now + parseMaxAge (headerGet headers "Cache-Control") }
      else info
    else info
  let info :=
    if headerGet headers "Expires" ≠ "" then
      match parseDate (headerGet headers "Expires") with
      | some t => { info with CacheUntil := t }
      | none => info
    else info
  info

/-- `db.Feed` (the columns the refresh engine reads and writes).
`none` models the Go zero `time.Time` (`IsZero`) left by a NULL column. -/
structure Feed where
  ID : Int
  URL : String
  Title : String
  LastFetchedAt : Option Int
  ETag : String
  LastModified : String
  CacheUntil : Option Int
deriving DecidableEq

/-- `shouldSkipFetch`: skip when the stored cache-valid-until timestamp
is not the zero value and `now` is strictly before it. -/
def shouldSkipFetch (feed : Feed) (now : Int) : Bool :=
  match feed.CacheUntil with
  | some t => now < t
  | none => false

/-- One item as produced by the gofeed parsing collaborator
(`gofeed.Item`, the fields the fetcher reads). -/
structure ParsedItem where
  GUID : String
  Title : String
  Link : String
  PublishedParsed : Option Int
  UpdatedParsed : Option Int
  Content : String
  Description : String
deriving DecidableEq

/-- A parsed feed document (`gofeed.Feed`, the fields the fetcher
reads). -/
structure ParsedFeed where
  Title : String
  Items : List ParsedItem
  UpdatedParsed : Option Int
  PublishedParsed : Option Int
deriving DecidableEq

/-- `FeedItem`: the fetcher's normalized item. -/
structure FeedItem where
  GUID : String
  Title : String
  Link : String
  PublishedAt : Int
  Content : String
deriving DecidableEq

/-- `FeedContent`: the fetcher's normalized feed. -/
structure FeedContent where
  Title : String
  Items : List FeedItem
  LastUpdated : Option Int
deriving DecidableEq

/-- The per-item normalization loop body of `FetchFeedWithCache`: GUID
falls back to the link, published time to updated time then to `now`,
content to the description. -/
def toFeedItem (now : Int) (item : ParsedItem) : FeedItem :=
  let guid := if item.GUID = "" then item.Link else item.GUID
  let publishedAt :=
    match item.PublishedParsed with
    | some t => t
    | none => match item.UpdatedParsed with
      | some t => t
      | none => now
  let postContent := if item.Content = "" then item.Description else item.Content
  { GUID := guid, Title := item.Title, Link := item.Link,
    PublishedAt := publishedAt, Content := postContent }

/-- The feed-level normalization of `FetchFeedWithCache`. -/
def toFeedContent (now : Int) (pf : ParsedFeed) : FeedContent :=
  { Title := pf.Title,
    Items := pf.Items.map (toFeedItem now),
    LastUpdated :=
      match pf.UpdatedParsed with
      | some t => some t
      | none => match pf.PublishedParsed with
        | some t => some t
        | none => none }

/-- `FetchResult`: what `FetchFeedWithCache` hands to the updater. -/
structure FetchResult where
  Content : Option FeedContent
  ShouldCache : Bool
  CacheInfo : Option CacheInfo
deriving DecidableEq

/-- The HTTP oracle: what the network would answer if asked — a
transport failure, or a status plus response headers plus the outcome
of parsing the body. -/
inductive NetResponse where
  | failure : String → NetResponse
  | response : Nat → List (String × String) → Option ParsedFeed → NetResponse
deriving DecidableEq

/-- `CacheFetcher.FetchFeedWithCache`, with the store lookup
(`GetFeedByURL`) and the network as oracles. The second component of
the result records whether an HTTP request was issued. -/
def fetchFeedWithCache (lookup : Except String (Option Feed))
    (net : NetResponse) (parseDate : String → Option Int) (now : Int) :
    Except String FetchResult × Bool :=
  match lookup with
  | .error e => (.error ("error checking feed cache: " ++ e), false)
  | .ok feedOpt =>
    if (match feedOpt with
        | some feed => shouldSkipFetch feed now
        | none => false) then
      (.ok { Content := none, ShouldCache := false, CacheInfo := none }, false)
    else
      match net with
      | .failure e => (.error ("error fetching feed: " ++ e), true)
      | .response status headers parsed =>
        if status = 304 then
          (.ok { Content := none, ShouldCache := false, CacheInfo := none }, true)
        else if status ≠ 200 then
          (.error "feed returned non-200 status code", true)
        else
          match parsed with
          | none => (.error "error parsing feed", true)
          | some pf =>
            (.ok { Content := some (toFeedContent now pf),
                   ShouldCache := true,
                   CacheInfo := some (extractCacheInfo parseDate now headers) }, true)

/-- Drop characters up to and through the first occurrence of `delim`;
if `delim` never occurs, drop everything. -/
def dropThrough (delim : List Char) : List Char → List Char
  | [] => []
  | c :: rest =>
      if delim.isPrefixOf (c :: rest) then (c :: rest).drop delim.length
      else dropThrough delim rest

/-- Tags the UGC policy keeps (common text formatting, links, images,
lists, headings). -/
def allowedTags : List (List Char) :=
  ["a", "b", "blockquote", "br", "code", "em", "h1", "h2", "h3", "h4",
   "h5", "h6", "hr", "i", "img", "li", "ol", "p", "pre", "strong", "table",
   "td", "th", "tr", "ul"].map String.data

/-- The character scan behind `sanitize`, fuelled by the input length
(each step consumes at least one character). Text is copied; a
`script`/`style` element is dropped together with its content up to the
matching close tag; a tag in the allowlist is kept; any other tag is
dropped while its inner text is kept. -/
def sanitizeAux : Nat → List Char → List Char
  | 0, cs => cs
  | _ + 1, [] => []
  | fuel + 1, c :: rest =>
      if c = '<' then
        let isClose := rest.head? = some '/'
        let nameChars :=
          (if isClose then rest.drop 1 else rest).takeWhile
            (fun ch => ch.isAlpha || ch.isDigit)
        let inner := rest.takeWhile (fun ch => ch ≠ '>')
        let after := rest.drop (inner.length + 1)
        if ¬isClose ∧ (nameChars = "script".data ∨ nameChars = "style".data) then
          sanitizeAux fuel (dropThrough ('<' :: '/' :: (nameChars ++ ['>'])) after)
        else if allowedTags.contains nameChars then
          '<' :: (inner ++ '>' :: sanitizeAux fuel after)
        else
          sanitizeAux fuel after
      else
        c :: sanitizeAux fuel rest

/-- Modelled from the spec: the sanitization collaborator
(`bluemonday.UGCPolicy().Sanitize`, an external library not in this
repository) — a user-generated-content policy that strips
`script`/`style` elements including their content, drops tags outside a
formatting/link/image allowlist while keeping their inner text, and
keeps allowlisted markup. Attribute filtering is not modelled. -/
def sanitize (s : String) : String :=
  String.mk (sanitizeAux s.data.length s.data)

/-- A row of the `posts` table (the columns `AddPost` writes). -/
structure Post where
  FeedId : Int
  GUID : String
  Title : String
  Link : String
  PublishedAt : Int
  Content : String
deriving DecidableEq

/-- Whether a row with the composite key (feed id, guid) already exists
— the `UNIQUE(feed_id, guid)` constraint consulted by
`INSERT OR IGNORE`. -/
def postExists (posts : List Post) (feedId : Int) (guid : String) : Bool :=
  posts.any (fun p => p.FeedId == feedId && p.GUID == guid)

/-- `Store.AddPost`: sanitize the content, then `INSERT OR IGNORE` into
`posts` under `UNIQUE(feed_id, guid)` — append a fresh row only when no
row has that key, leave an existing row untouched, and report success in
both cases (the Go function only errors on database I/O failure, which
is environment, not algorithm). -/
def addPost (posts : List Post) (feedId : Int) (guid title link : String)
    (publishedAt : Int) (content : String) : List Post :=
  if postExists posts feedId guid then posts
  else posts ++ [{ FeedId := feedId, GUID := guid, Title := title, Link := link,
                   PublishedAt := publishedAt, Content := sanitize content }]

/-- The `AddPost` loop of `Updater.updateFeeds` over the items of one
fetched feed. -/
def ingestItems (posts : List Post) (feedId : Int) (items : List FeedItem) :
    List Post :=
  items.foldl
    (fun ps i => addPost ps feedId i.GUID i.Title i.Link i.PublishedAt i.Content)
    posts

/-- One store write issued by `Updater.updateFeeds`. -/
inductive StoreOp where
  | updateTitle : Int → String → StoreOp
  | addPost : Int → String → String → String → Int → String → StoreOp
  | updateLastFetched : Int → Int → StoreOp
  | updateCacheInfo : Int → String → String → Int → StoreOp
deriving DecidableEq

/-- The persistent store: the `feeds` and `posts` tables. -/
structure StoreState where
  feeds : List Feed
  posts : List Post
deriving DecidableEq

/-- Effect of one store write on the store state (`UpdateFeedTitle`,
`AddPost`, `UpdateFeedLastFetched`, `UpdateFeedCacheInfo`). -/
def applyOp (s : StoreState) : StoreOp → StoreState
  | .updateTitle fid t =>
      { s with feeds := s.feeds.map fun f =>
          if f.ID = fid then { f with Title := t } else f }
  | .addPost fid guid title link pub content =>
      { s with posts := addPost s.posts fid guid title link pub content }
  | .updateLastFetched fid t =>
      { s with feeds := s.feeds.map fun f =>
          if f.ID = fid then { f with LastFetchedAt := some t } else f }
  | .updateCacheInfo fid etag lm cu =>
      { s with feeds := s.feeds.map fun f =>
          if f.ID = fid then
            { f with ETag := etag, LastModified := lm, CacheUntil := some cu }
          else f }

/-- Apply a batch of store writes in order. -/
def applyOps (s : StoreState) (ops : List StoreOp) : StoreState :=
  ops.foldl applyOp s

/-- The store writes the per-feed body of `Updater.updateFeeds` issues
for one feed, given the fetch outcome: on a fetch error or on a
nil-content result (skip or not-modified) it issues none and moves on;
otherwise it updates the title when it differs, adds every item, stamps
last-fetched-at with `now`, and writes the cache metadata when
`ShouldCache` is set and cache info is present. -/
def processFeedOps (feed : Feed) (res : Except String FetchResult) (now : Int) :
    List StoreOp :=
  match res with
  | .error _ => []
  | .ok r =>
    match r.Content with
    | none => []
    | some content =>
      (if content.Title ≠ feed.Title then [.updateTitle feed.ID content.Title] else [])
      ++ content.Items.map (fun i =>
           StoreOp.addPost feed.ID i.GUID i.Title i.Link i.PublishedAt i.Content)
      ++ [.updateLastFetched feed.ID now]
      ++ (if r.ShouldCache then
            match r.CacheInfo with
            | some ci => [.updateCacheInfo feed.ID ci.ETag ci.LastModified ci.CacheUntil]
            | none => []
          else [])

/-- The log lines the per-feed body of `Updater.updateFeeds` emits for
one feed. -/
def processFeedLog (feed : Feed) (res : Except String FetchResult) : List String :=
  match res with
  | .error e => ["Error fetching feed " ++ feed.URL ++ ": " ++ e]
  | .ok r =>
    match r.Content with
    | none => ["Feed " ++ feed.URL ++ " was cached or not modified, skipping"]
    | some _ => []

/-- `Updater.updateFeeds`: load the full feed list (its failure is the
only one that propagates), then for each feed in order run the fetch and
issue that feed's store writes and log lines; per-feed failures never
abort the loop. -/
def updateFeeds (feedsList : Except String (List Feed))
    (fetch : Feed → Except String FetchResult) (now : Int) :
    Except String (List StoreOp × List String) :=
  match feedsList with
  | .error e => .error e
  | .ok fs =>
      .ok (fs.flatMap (fun f => processFeedOps f (fetch f) now),
           fs.flatMap (fun f => processFeedLog f (fetch f)))

/-- Substring test: does `sub` occur contiguously inside `hay`? -/
def listContainsSub (hay sub : List Char) : Bool :=
  (List.range (hay.length + 1)).any (fun k => sub.isPrefixOf (hay.drop k))

/-- The per-feed body of `Updater.updateFeeds` with fallible store
writes: the environment `wr` decides, per operation, whether the write
succeeds (`none`) or fails with a database error (`some cause`). The
result pairs the writes that took effect with the log lines, following
the source line by line: a failed title, post, last-fetched or
cache-info write is logged with the underlying cause only — the
message carries no feed URL — and execution falls through to the
feed's remaining writes; only the fetch-error and nil-content log lines
mention the URL. -/
def processFeedFallible (wr : StoreOp → Option String) (feed : Feed)
    (res : Except String FetchResult) (now : Int) :
    List StoreOp × List String :=
  match res with
  | .error e => ([], ["Error fetching feed " ++ feed.URL ++ ": " ++ e])
  | .ok r =>
    match r.Content with
    | none => ([], ["Feed " ++ feed.URL ++ " was cached or not modified, skipping"])
    | some content =>
      let titleStep : List StoreOp × List String :=
        if content.Title ≠ feed.Title then
          match wr (.updateTitle feed.ID content.Title) with
          | none => ([.updateTitle feed.ID content.Title], [])
          | some e => ([], ["Error updating feed title: " ++ e])
        else ([], [])
      let postSteps : List (List StoreOp × List String) :=
        content.Items.map fun i =>
          match wr (.addPost feed.ID i.GUID i.Title i.Link i.PublishedAt i.Content) with
          | none => ([StoreOp.addPost feed.ID i.GUID i.Title i.Link i.PublishedAt i.Content], [])
          | some e => ([], ["Error adding post: " ++ e])
      let lastStep : List StoreOp × List String :=
        match wr (.updateLastFetched feed.ID now) with
        | none => ([StoreOp.updateLastFetched feed.ID now], [])
        | some e => ([], ["Error updating feed last fetched: " ++ e])
      let cacheStep : List StoreOp × List String :=
        if r.ShouldCache then
          match r.CacheInfo with
          | some ci =>
            match wr (.updateCacheInfo feed.ID ci.ETag ci.LastModified ci.CacheUntil) with
            | none => ([StoreOp.updateCacheInfo feed.ID ci.ETag ci.LastModified ci.CacheUntil], [])
            | some e => ([], ["Error updating feed cache info: " ++ e])
          | none => ([], [])
        else ([], [])
      let steps := titleStep :: (postSteps ++ [lastStep, cacheStep])
      (steps.flatMap Prod.fst, steps.flatMap Prod.snd)

/-- `Updater.updateFeeds` over the fallible store: the feed-list load is
the only failure that propagates; every feed is processed in order with
`processFeedFallible`, whatever the per-feed fetch outcomes and write
failures. -/
def updateFeedsFallible (feedsList : Except String (List Feed))
    (fetch : Feed → Except String FetchResult)
    (wr : Feed → StoreOp → Option String) (now : Int) :
    Except String (List StoreOp × List String) :=
  match feedsList with
  | .error e => .error e
  | .ok fs =>
      .ok (fs.flatMap (fun f => (processFeedFallible (wr f) f (fetch f) now).1),
           fs.flatMap (fun f => (processFeedFallible (wr f) f (fetch f) now).2))

theorem addPost_of_exists {posts : List Post} {fid : Int} {g : String}
    (t l : String) (pub : Int) (c : String)
    (h : postExists posts fid g = true) :
    addPost posts fid g t l pub c = posts := by
  simp [addPost, h]

theorem addPost_of_not_exists {posts : List Post} {fid : Int} {g : String}
    (t l : String) (pub : Int) (c : String)
    (h : postExists posts fid g = false) :
    addPost posts fid g t l pub c =
      posts ++ [{ FeedId := fid, GUID := g, Title := t, Link := l,
                  PublishedAt := pub, Content := sanitize c }] := by
  simp [addPost, h]

theorem postExists_addPost_self (posts : List Post) (fid : Int)
    (g t l : String) (pub : Int) (c : String) :
    postExists (addPost posts fid g t l pub c) fid g = true := by
  unfold addPost
  split
  · assumption
  · simp [postExists, List.any_append]

theorem postExists_addPost_mono {posts : List Post} {fid2 : Int} {g2 : String}
    (fid : Int) (g t l : String) (pub : Int) (c : String)
    (h : postExists posts fid2 g2 = true) :
    postExists (addPost posts fid g t l pub c) fid2 g2 = true := by
  unfold addPost
  split
  · exact h
  · unfold postExists at h ⊢
    simp [List.any_append]
    simp at h
    exact Or.inl h

theorem ingestItems_cons (posts : List Post) (fid : Int) (i : FeedItem)
    (items : List FeedItem) :
    ingestItems posts fid (i :: items) =
      ingestItems (addPost posts fid i.GUID i.Title i.Link i.PublishedAt i.Content)
        fid items := rfl

theorem postExists_ingest_mono {fid2 : Int} {g2 : String} (fid : Int)
    (items : List FeedItem) :
    ∀ posts : List Post, postExists posts fid2 g2 = true →
      postExists (ingestItems posts fid items) fid2 g2 = true := by
  induction items with
  | nil => intro posts h; exact h
  | cons i is ih =>
      intro posts h
      rw [ingestItems_cons]
      exact ih _ (postExists_addPost_mono _ _ _ _ _ _ h)

theorem postExists_ingest_of_mem {i : FeedItem} {items : List FeedItem}
    (fid : Int) (hmem : i ∈ items) :
    ∀ posts : List Post, postExists (ingestItems posts fid items) fid i.GUID = true := by
  induction items with
  | nil => cases hmem
  | cons j js ih =>
      intro posts
      rw [ingestItems_cons]
      rcases List.mem_cons.mp hmem with h | h
      · subst h
        exact postExists_ingest_mono _ _ _ (postExists_addPost_self _ _ _ _ _ _ _)
      · exact ih h _

theorem ingestItems_noop {fid : Int} {items : List FeedItem} :
    ∀ posts : List Post, (∀ i ∈ items, postExists posts fid i.GUID = true) →
      ingestItems posts fid items = posts := by
  induction items with
  | nil => intro posts _; rfl
  | cons j js ih =>
      intro posts h
      rw [ingestItems_cons,
        addPost_of_exists _ _ _ _ (h j (List.mem_cons_self j js))]
      exact ih posts (fun i hi => h i (List.mem_cons_of_mem j hi))

/-- C1: `shouldSkipFetch` returns skip exactly when the stored
cache-valid-until timestamp is present (not the zero value) and strictly
in the future relative to `now`; an absent timestamp always yields
attempt; and whenever it says skip, `FetchFeedWithCache` returns the
empty result without issuing any HTTP request. -/
theorem shouldSkipFetch_iff_and_no_http :
    ∀ (feed : Feed) (now : Int),
      (shouldSkipFetch feed now = true ↔
        ∃ t, feed.CacheUntil = some t ∧ now < t) ∧
      (feed.CacheUntil = none → shouldSkipFetch feed now = false) ∧
      (∀ (net : NetResponse) (parseDate : String → Option Int),
        shouldSkipFetch feed now = true →
        fetchFeedWithCache (.ok (some feed)) net parseDate now =
          (.ok { Content := none, ShouldCache := false, CacheInfo := none }, false)) := by
  intro feed now
  refine ⟨?_, ?_, ?_⟩
  · unfold shouldSkipFetch
    cases h : feed.CacheUntil with
    | none => simp
    | some t => simp [decide_eq_true_eq]
  · intro h
    unfold shouldSkipFetch
    rw [h]
  · intro net parseDate h
    unfold fetchFeedWithCache
    simp [h]

/-- Witness for C1: a feed cached until time 10 is skipped at time 5 and
the fetcher issues no request. -/
theorem shouldSkipFetch_iff_and_no_http_witness :
    fetchFeedWithCache
        (.ok (some { ID := 1, URL := "http://example.com/feed", Title := "T",
                     LastFetchedAt := none, ETag := "", LastModified := "",
                     CacheUntil := some 10 }))
        (.response 200 [] none) (fun _ => none) 5 =
      (.ok { Content := none, ShouldCache := false, CacheInfo := none }, false) :=
  (shouldSkipFetch_iff_and_no_http
    { ID := 1, URL := "http://example.com/feed", Title := "T",
      LastFetchedAt := none, ETag := "", LastModified := "",
      CacheUntil := some 10 } 5).2.2 (.response 200 [] none) (fun _ => none)
    (by decide)

/-- C3: `AddPost` is insert-if-absent on the composite key
(feed id, guid): with an existing row the table is left completely
untouched, without one exactly the new (sanitized) row is appended, and
re-running the ingestion loop with the same item set adds zero rows
(idempotence); the operation reports success in both cases, the model
having no failing outcome. -/
theorem addPost_insert_if_absent_idempotent :
    ∀ (posts : List Post) (fid : Int) (g t l : String) (pub : Int) (c : String),
      (postExists posts fid g = true → addPost posts fid g t l pub c = posts) ∧
      (postExists posts fid g = false →
        addPost posts fid g t l pub c =
          posts ++ [{ FeedId := fid, GUID := g, Title := t, Link := l,
                      PublishedAt := pub, Content := sanitize c }]) ∧
      (∀ items : List FeedItem,
        ingestItems (ingestItems posts fid items) fid items =
          ingestItems posts fid items) := by
  intro posts fid g t l pub c
  refine ⟨addPost_of_exists _ _ _ _, addPost_of_not_exists _ _ _ _, ?_⟩
  intro items
  exact ingestItems_noop _ (fun i hi => postExists_ingest_of_mem fid hi posts)

/-- Witness for C3: adding a post under an occupied (feed, guid) key
leaves the table untouched, and under a free key appends exactly the new
sanitized row. -/
theorem addPost_insert_if_absent_idempotent_witness :
    (addPost [{ FeedId := 1, GUID := "g1", Title := "T", Link := "L",
                PublishedAt := 0, Content := "B" }] 1 "g1" "T2" "L2" 7 "C" =
      [{ FeedId := 1, GUID := "g1", Title := "T", Link := "L",
         PublishedAt := 0, Content := "B" }]) ∧
    (addPost [] 1 "g1" "T2" "L2" 7 "C" =
      [{ FeedId := 1, GUID := "g1", Title := "T2", Link := "L2",
         PublishedAt := 7, Content := sanitize "C" }]) :=
  ⟨(addPost_insert_if_absent_idempotent
      [{ FeedId := 1, GUID := "g1", Title := "T", Link := "L",
         PublishedAt := 0, Content := "B" }] 1 "g1" "T2" "L2" 7 "C").1 (by decide),
   (addPost_insert_if_absent_idempotent [] 1 "g1" "T2" "L2" 7 "C").2.1 (by decide)⟩

/-- C4: every row `AddPost` adds carries the sanitizer's output — any
post in the table after `AddPost` was either already there or has
exactly the sanitized content, with no path around the sanitization —
and the policy drops a script element while keeping paragraph, bold and
link markup. -/
theorem addPost_only_sanitized_content :
    (∀ (posts : List Post) (fid : Int) (g t l : String) (pub : Int)
      (c : String) (p : Post),
      p ∈ addPost posts fid g t l pub c → p ∈ posts ∨ p.Content = sanitize c) ∧
    sanitize "<p>Hello <b>world</b> <script>evil()</script><a href=x>link</a></p>" =
      "<p>Hello <b>world</b> <a href=x>link</a></p>" := by
  constructor
  · intro posts fid g t l pub c p hp
    unfold addPost at hp
    split at hp
    · exact Or.inl hp
    · rcases List.mem_append.mp hp with h | h
      · exact Or.inl h
      · right
        simp at h
        rw [h]
  · decide

/-- Witness for C4: the row created by `AddPost` on an empty table from
content holding a script tag carries the sanitized content. -/
theorem addPost_only_sanitized_content_witness :
    ({ FeedId := 1, GUID := "g", Title := "T", Link := "L", PublishedAt := 0,
       Content := sanitize "<script>x()</script>hi" } : Post) ∈ ([] : List Post) ∨
    ({ FeedId := 1, GUID := "g", Title := "T", Link := "L", PublishedAt := 0,
       Content := sanitize "<script>x()</script>hi" } : Post).Content =
      sanitize "<script>x()</script>hi" :=
  addPost_only_sanitized_content.1 [] 1 "g" "T" "L" 0 "<script>x()</script>hi"
    _ (by decide)

theorem parseMaxAgeLoop_eq_scan :
    ∀ tokens : List String, parseMaxAgeLoop tokens = specMaxAgeScan tokens := by
  intro tokens
  induction tokens with
  | nil => rfl
  | cons p rest ih =>
      simp only [parseMaxAgeLoop, specMaxAgeScan, List.findSome?_cons, maxAgeToken]
      split_ifs with h1 h2
      · cases h : goAtoi (goTrimPrefix (trimSpace p) "max-age=") with
        | none => simpa [h, specMaxAgeScan] using ih
        | some v => simp [h]
      · simpa [specMaxAgeScan] using ih
      · simpa [specMaxAgeScan] using ih

/-- Counterexample for C6: `parseMaxAge` hands the remainder to
`strconv.Atoi`, which accepts a sign, so `max-age=-5` yields `-5`, not
the claimed not-found sentinel `0` for a value that is not a valid
non-negative integer. -/
theorem parseMaxAge_negative_cex :
    parseMaxAge "max-age=-5" = -5 ∧ parseMaxAge "max-age=-5" ≠ 0 := by decide

/-- C6 (amended): `parseMaxAge` splits the value on commas, trims each
token, and returns the value of the first `max-age=` token whose
non-empty remainder `strconv.Atoi` accepts — possibly negative, with
unparsable `max-age=` tokens passed over rather than stopping the scan —
and `0` when no token qualifies; the five example inputs behave as
listed. -/
theorem parseMaxAge_scan_spec :
    (∀ s : String, parseMaxAge s = specMaxAgeScan (splitComma s)) ∧
    parseMaxAge "max-age=3600" = 3600 ∧
    parseMaxAge "public, max-age=1800" = 1800 ∧
    parseMaxAge "no-cache" = 0 ∧
    parseMaxAge "max-age=invalid" = 0 ∧
    parseMaxAge "" = 0 ∧
    parseMaxAge "max-age=bad, max-age=7" = 7 := by
  refine ⟨fun s => parseMaxAgeLoop_eq_scan _, ?_, ?_, ?_, ?_, ?_, ?_⟩ <;> decide

theorem flatMap_fst_map_single {α β γ : Type} (l : List α) (f : α → β) :
    (l.map (fun a => ([f a], ([] : List γ)))).flatMap Prod.fst = l.map f := by
  induction l with
  | nil => rfl
  | cons a as ih => simp [ih]

theorem flatMap_snd_map_single {α β γ : Type} (l : List α) (f : α → β) :
    (l.map (fun a => ([f a], ([] : List γ)))).flatMap Prod.snd = [] := by
  induction l with
  | nil => rfl
  | cons a as ih => simp [ih]

theorem processFeedFallible_no_failures :
    ∀ (feed : Feed) (res : Except String FetchResult) (now : Int),
      processFeedFallible (fun _ => none) feed res now =
        (processFeedOps feed res now, processFeedLog feed res) := by
  intro feed res now
  rcases res with e | r
  · rfl
  · rcases hr : r.Content with _ | content
    · simp [processFeedFallible, processFeedOps, processFeedLog, hr]
    · simp only [processFeedFallible, processFeedOps, processFeedLog, hr,
        List.flatMap_cons, List.flatMap_append, List.flatMap_nil,
        flatMap_fst_map_single, flatMap_snd_map_single]
      rw [Prod.mk.injEq]
      constructor <;>
        · split_ifs <;>
            rcases hc : r.CacheInfo with _ | ci <;>
              simp [hc, List.append_assoc]

/-- Counterexample for C7: a batch where a feed's `AddPost` write fails
with a storage error completes without propagating — the failing feed's
remaining writes even proceed (last-fetched-at is still stamped) — but
the storage error is logged as "Error adding post: disk full", a line
that does not contain the feed's URL, so "logged with that feed's URL"
is false for storage errors. -/
theorem storage_error_log_no_url_cex :
    updateFeedsFallible
        (.ok [{ ID := 1, URL := "http://ok/feed", Title := "T",
                LastFetchedAt := none, ETag := "", LastModified := "",
                CacheUntil := none }])
        (fun _ => .ok
          { Content := some
              { Title := "T",
                Items := [{ GUID := "g1", Title := "P", Link := "l",
                            PublishedAt := 3, Content := "c" }],
                LastUpdated := none },
            ShouldCache := false, CacheInfo := none })
        (fun _ op => match op with
          | .addPost _ _ _ _ _ _ => some "disk full"
          | _ => none)
        9 =
      .ok ([StoreOp.updateLastFetched 1 9], ["Error adding post: disk full"]) ∧
    listContainsSub "Error adding post: disk full".data "http://ok/feed".data
      = false := by
  constructor
  · rfl
  · decide

/-- C7 (amended): within one refresh batch every per-feed failure is
caught at the per-feed boundary and the batch continues — the only
error that propagates out of `updateFeeds` is a failure of the initial
feed-list load. A fetch (or parse) error is logged with that feed's
URL; a storage-write error is logged with the underlying cause only,
without the URL, and does not even stop the failing feed's remaining
writes (a later write that succeeds, such as the last-fetched-at stamp,
is still issued). -/
theorem updateFeeds_fallible_isolation :
    (∀ (e : String) (fetch : Feed → Except String FetchResult)
      (wr : Feed → StoreOp → Option String) (now : Int),
      updateFeedsFallible (.error e) fetch wr now = .error e) ∧
    (∀ (fs : List Feed) (fetch : Feed → Except String FetchResult)
      (wr : Feed → StoreOp → Option String) (now : Int),
      ∃ p, updateFeedsFallible (.ok fs) fetch wr now = .ok p) ∧
    (∀ (pre post : List Feed) (bad : Feed)
      (fetch : Feed → Except String FetchResult)
      (wr : Feed → StoreOp → Option String) (now : Int) (msg : String),
      fetch bad = .error msg →
      updateFeedsFallible (.ok (pre ++ bad :: post)) fetch wr now =
        .ok (pre.flatMap (fun f => (processFeedFallible (wr f) f (fetch f) now).1) ++
               post.flatMap (fun f => (processFeedFallible (wr f) f (fetch f) now).1),
             pre.flatMap (fun f => (processFeedFallible (wr f) f (fetch f) now).2) ++
               ("Error fetching feed " ++ bad.URL ++ ": " ++ msg) ::
               post.flatMap (fun f => (processFeedFallible (wr f) f (fetch f) now).2))) ∧
    (∀ (wr : StoreOp → Option String) (feed : Feed) (content : FeedContent)
      (sc : Bool) (ciOpt : Option CacheInfo) (now : Int) (i : FeedItem) (e : String),
      i ∈ content.Items →
      wr (.addPost feed.ID i.GUID i.Title i.Link i.PublishedAt i.Content) = some e →
      ("Error adding post: " ++ e) ∈
        (processFeedFallible wr feed
          (.ok { Content := some content, ShouldCache := sc, CacheInfo := ciOpt })
          now).2) ∧
    (∀ (wr : StoreOp → Option String) (feed : Feed) (content : FeedContent)
      (sc : Bool) (ciOpt : Option CacheInfo) (now : Int),
      wr (.updateLastFetched feed.ID now) = none →
      StoreOp.updateLastFetched feed.ID now ∈
        (processFeedFallible wr feed
          (.ok { Content := some content, ShouldCache := sc, CacheInfo := ciOpt })
          now).1) := by
  refine ⟨?_, ?_, ?_, ?_, ?_⟩
  · intro e fetch wr now; rfl
  · intro fs fetch wr now; exact ⟨_, rfl⟩
  · intro pre post bad fetch wr now msg h
    simp [updateFeedsFallible, List.flatMap_append, List.flatMap_cons, h,
      processFeedFallible]
  · intro wr feed content sc ciOpt now i e hi hw
    simp only [processFeedFallible]
    apply List.mem_flatMap.mpr
    refine ⟨([], ["Error adding post: " ++ e]), ?_, by simp⟩
    apply List.mem_cons_of_mem
    apply List.mem_append_left
    exact List.mem_map.mpr ⟨i, hi, by simp [hw]⟩
  · intro wr feed content sc ciOpt now hw
    simp only [processFeedFallible]
    apply List.mem_flatMap.mpr
    refine ⟨([StoreOp.updateLastFetched feed.ID now], []), ?_, by simp⟩
    apply List.mem_cons_of_mem
    apply List.mem_append_right
    rw [hw]
    simp

/-- Witness for C7 (amended): with a write environment that rejects post
inserts with "disk full", the item's failed write is logged with that
cause alone. -/
theorem updateFeeds_fallible_isolation_witness :
    ("Error adding post: " ++ "disk full") ∈
      (processFeedFallible
        (fun op => match op with
          | .addPost _ _ _ _ _ _ => some "disk full"
          | _ => none)
        { ID := 1, URL := "http://ok/feed", Title := "T", LastFetchedAt := none,
          ETag := "", LastModified := "", CacheUntil := none }
        (.ok
          { Content := some
              { Title := "T",
                Items := [{ GUID := "g1", Title := "P", Link := "l",
                            PublishedAt := 3, Content := "c" }],
                LastUpdated := none },
            ShouldCache := false, CacheInfo := none })
        9).2 :=
  updateFeeds_fallible_isolation.2.2.2.1
    (fun op => match op with
      | .addPost _ _ _ _ _ _ => some "disk full"
      | _ => none)
    { ID := 1, URL := "http://ok/feed", Title := "T", LastFetchedAt := none,
      ETag := "", LastModified := "", CacheUntil := none }
    { Title := "T",
      Items := [{ GUID := "g1", Title := "P", Link := "l",
                  PublishedAt := 3, Content := "c" }],
      LastUpdated := none }
    false none 9
    { GUID := "g1", Title := "P", Link := "l", PublishedAt := 3, Content := "c" }
    "disk full" (by decide) (by decide)

/-- Counterexample for C8: a parsed feed whose title is empty but
different from the stored title "Old" still triggers a title write — the
code has no non-emptiness guard, so the stored title is overwritten with
the empty string (and the claim's "only if non-empty" is false). -/
theorem updateTitle_empty_overwrite_cex :
    StoreOp.updateTitle 1 "" ∈
      processFeedOps
        { ID := 1, URL := "u", Title := "Old", LastFetchedAt := none,
          ETag := "", LastModified := "", CacheUntil := none }
        (.ok { Content := some { Title := "", Items := [], LastUpdated := none },
               ShouldCache := false, CacheInfo := none }) 5 ∧
    (applyOps
        { feeds := [{ ID := 1, URL := "u", Title := "Old", LastFetchedAt := none,
                      ETag := "", LastModified := "", CacheUntil := none }],
          posts := [] }
        (processFeedOps
          { ID := 1, URL := "u", Title := "Old", LastFetchedAt := none,
            ETag := "", LastModified := "", CacheUntil := none }
          (.ok { Content := some { Title := "", Items := [], LastUpdated := none },
                 ShouldCache := false, CacheInfo := none }) 5)).feeds =
      [{ ID := 1, URL := "u", Title := "", LastFetchedAt := some 5,
         ETag := "", LastModified := "", CacheUntil := none }] := by
  decide

/-- C8 (amended): during a refresh the stored feed title is overwritten
if and only if the newly parsed title differs from the stored one — the
empty-vs-non-empty distinction plays no role; when the titles are equal
no title write is issued. -/
theorem updateTitle_iff_differs :
    ∀ (feed : Feed) (content : FeedContent) (sc : Bool) (ciOpt : Option CacheInfo)
      (now fid : Int) (t : String),
      (StoreOp.updateTitle fid t ∈
        processFeedOps feed
          (.ok { Content := some content, ShouldCache := sc, CacheInfo := ciOpt }) now) ↔
      (fid = feed.ID ∧ t = content.Title ∧ content.Title ≠ feed.Title) := by
  intro feed content sc ciOpt now fid t
  by_cases h : content.Title = feed.Title <;>
    cases sc <;> rcases ciOpt with _ | ci <;>
      simp [processFeedOps, h, and_assoc]

/-- C9: a skipped attempt and a network attempt answered 304 yield the
same `FetchResult` — nil content, `ShouldCache` false, nil cache info —
and on that result the updater issues no store write of any kind, so the
store state is unchanged. -/
theorem skip_304_indistinguishable :
    ∀ (feed : Feed) (now : Int) (parseDate : String → Option Int),
      (∀ net : NetResponse, shouldSkipFetch feed now = true →
        (fetchFeedWithCache (.ok (some feed)) net parseDate now).1 =
          .ok { Content := none, ShouldCache := false, CacheInfo := none }) ∧
      (∀ (headers : List (String × String)) (parsed : Option ParsedFeed),
        (fetchFeedWithCache (.ok (some feed))
            (.response 304 headers parsed) parseDate now).1 =
          .ok { Content := none, ShouldCache := false, CacheInfo := none }) ∧
      (∀ s : StoreState,
        applyOps s
          (processFeedOps feed
            (.ok { Content := none, ShouldCache := false, CacheInfo := none }) now) = s) := by
  intro feed now parseDate
  refine ⟨?_, ?_, ?_⟩
  · intro net h
    simp [fetchFeedWithCache, h]
  · intro headers parsed
    by_cases h : shouldSkipFetch feed now <;> simp [fetchFeedWithCache, h]
  · intro s
    rfl

/-- Witness for C9: a feed cached until 10, at time 5, gives the same
result as a 304 answer, and the updater leaves a concrete store state
unchanged on it. -/
theorem skip_304_indistinguishable_witness :
    (fetchFeedWithCache
        (.ok (some { ID := 1, URL := "u", Title := "T", LastFetchedAt := none,
                     ETag := "", LastModified := "", CacheUntil := some 10 }))
        (.response 200 [] none) (fun _ => none) 5).1 =
      .ok { Content := none, ShouldCache := false, CacheInfo := none } :=
  (skip_304_indistinguishable
    { ID := 1, URL := "u", Title := "T", LastFetchedAt := none,
      ETag := "", LastModified := "", CacheUntil := some 10 } 5
    (fun _ => none)).1 (.response 200 [] none) (by decide)

/-- Counterexample for C2: on a refresh attempt that reaches the network
and is answered 304, the updater issues no store writes at all — in
particular `last-fetched-at` is NOT stamped, contrary to the claim. -/
theorem notModified_no_lastFetched_cex :
    processFeedOps
        { ID := 1, URL := "u", Title := "T", LastFetchedAt := none,
          ETag := "", LastModified := "", CacheUntil := none }
        ((fetchFeedWithCache
            (.ok (some { ID := 1, URL := "u", Title := "T", LastFetchedAt := none,
                         ETag := "", LastModified := "", CacheUntil := none }))
            (.response 304 [("ETag", "x")] none) (fun _ => none) 5).1) 5 = [] ∧
    StoreOp.updateLastFetched 1 5 ∉
      processFeedOps
        { ID := 1, URL := "u", Title := "T", LastFetchedAt := none,
          ETag := "", LastModified := "", CacheUntil := none }
        ((fetchFeedWithCache
            (.ok (some { ID := 1, URL := "u", Title := "T", LastFetchedAt := none,
                         ETag := "", LastModified := "", CacheUntil := none }))
            (.response 304 [("ETag", "x")] none) (fun _ => none) 5).1) 5 := by
  decide

/-- C2 (amended): on a not-modified (304) answer the stored items and
the feed's cache metadata are left unchanged and so is `last-fetched-at`
— the updater treats a 304 exactly like a skip and performs no store
write whatsoever; `last-fetched-at` is likewise never stamped on a
skipped attempt. -/
theorem notModified_and_skip_no_writes :
    ∀ (feed : Feed) (now : Int) (parseDate : String → Option Int) (s : StoreState),
      (∀ (headers : List (String × String)) (parsed : Option ParsedFeed),
        applyOps s
          (processFeedOps feed
            ((fetchFeedWithCache (.ok (some feed))
                (.response 304 headers parsed) parseDate now).1) now) = s) ∧
      (∀ net : NetResponse, shouldSkipFetch feed now = true →
        applyOps s
          (processFeedOps feed
            ((fetchFeedWithCache (.ok (some feed)) net parseDate now).1) now) = s) := by
  intro feed now parseDate s
  constructor
  · intro headers parsed
    by_cases h : shouldSkipFetch feed now <;>
      simp [fetchFeedWithCache, h, processFeedOps, applyOps]
  · intro net h
    simp [fetchFeedWithCache, h, processFeedOps, applyOps]

/-- Witness for C2 (amended): a skipped attempt (cached until 10, now 5)
leaves a concrete one-feed store state unchanged. -/
theorem notModified_and_skip_no_writes_witness :
    applyOps
        { feeds := [{ ID := 1, URL := "u", Title := "T", LastFetchedAt := none,
                      ETag := "", LastModified := "", CacheUntil := some 10 }],
          posts := [] }
        (processFeedOps
          { ID := 1, URL := "u", Title := "T", LastFetchedAt := none,
            ETag := "", LastModified := "", CacheUntil := some 10 }
          ((fetchFeedWithCache
              (.ok (some { ID := 1, URL := "u", Title := "T", LastFetchedAt := none,
                           ETag := "", LastModified := "", CacheUntil := some 10 }))
              (.response 200 [] none) (fun _ => none) 5).1) 5) =
      { feeds := [{ ID := 1, URL := "u", Title := "T", LastFetchedAt := none,
                    ETag := "", LastModified := "", CacheUntil := some 10 }],
        posts := [] } :=
  (notModified_and_skip_no_writes
    { ID := 1, URL := "u", Title := "T", LastFetchedAt := none,
      ETag := "", LastModified := "", CacheUntil := some 10 } 5 (fun _ => none)
    { feeds := [{ ID := 1, URL := "u", Title := "T", LastFetchedAt := none,
                  ETag := "", LastModified := "", CacheUntil := some 10 }],
      posts := [] }).2 (.response 200 [] none) (by decide)

end Rssgrid
